import Mathlib

/-!
Verification of the SICK Visionary C++ samples against their design
specification.  The sample drivers (SampleVisionaryS, SampleVisionaryTMini,
SampleAutoIPScan, SampleAssignIP) are embedded shallowly; the protocol
engine they call (VisionaryControl, CoLa parameter reader and writer,
VisionaryDataStream, VisionaryAutoIPScan) lives in a separate shared
library and is modelled from the specification where a claim depends on
its behaviour.
-/

namespace Visionary

/-- Protocol variants selectable at open time.  The samples use
COLA_B (the legacy binary framing) and COLA_2 (the v2 framing). -/
inductive ProtocolType
  | COLA_B
  | COLA_2
deriving DecidableEq, Repr

/-- CoLa command and response kinds used by the samples. -/
inductive CoLaCommandType
  | READ_VARIABLE
  | WRITE_VARIABLE
  | METHOD_INVOCATION
  | READ_VARIABLE_RESPONSE
  | WRITE_VARIABLE_RESPONSE
  | METHOD_RETURN_VALUE
deriving DecidableEq, Repr

/-- Device-reported result codes.  OK plus representative non-OK codes. -/
inductive CoLaError
  | OK
  | VARIABLE_UNKNOWN
  | ACCESS_DENIED
deriving DecidableEq, Repr

/-- Authentication levels, ordered by privilege. -/
inductive UserLevel
  | NONE
  | AUTHORIZED_CLIENT
  | SERVICE
deriving DecidableEq, Repr

/-- Control-session connection state. -/
inductive SessionState
  | Disconnected
  | Connected
  | Authenticated (lvl : UserLevel)
deriving DecidableEq, Repr

/-- Device acquisition state. -/
inductive AcqState
  | STOPPED
  | RUNNING
deriving DecidableEq, Repr

/-- Exit-code accumulator from SampleVisionaryS.cpp lines 27-55 and the
identical class in SampleVisionaryTMini.cpp: a smaller non-zero code has
priority over a larger one. -/
structure ExitCode where
  m_code : Int
deriving DecidableEq, Repr

/-- ExitCode constructor: m_code starts at 0. -/
def ExitCode.init : ExitCode := ⟨0⟩

/-- ExitCode::operator()(int c): feed in a new exit code. -/
def ExitCode.feed (e : ExitCode) (c : Int) : ExitCode :=
  if c ≠ 0 ∧ (e.m_code = 0 ∨ c < e.m_code) then ⟨c⟩ else e

/-- ExitCode::ok(): whether no error code was recorded. -/
def ExitCode.ok (e : ExitCode) : Bool := e.m_code == 0

/-- ExitCode::get(): the final exit code. -/
def ExitCode.get (e : ExitCode) : Int := e.m_code

/-- Feeding a whole list of codes, in order, into a fresh accumulator. -/
def ExitCode.run (cs : List Int) : ExitCode := cs.foldl ExitCode.feed ExitCode.init

/-- The pure combining function underlying ExitCode.feed. -/
def mcomb (a c : Int) : Int :=
  if c ≠ 0 ∧ (a = 0 ∨ c < a) then c else a

/-- The same combine restricted to non-zero inputs: min, seeded by 0. -/
def mstep (a c : Int) : Int :=
  if a = 0 then c else min a c

/-- Big-endian value of a byte list. -/
def beVal (bs : List Nat) : Nat := bs.foldl (fun a b => a * 256 + b) 0

/-- Big-endian byte encoding of a 16-bit unsigned value (CoLa UInt). -/
def encUInt (v : Nat) : List Nat := [v / 256 % 256, v % 256]

/-- Big-endian byte encoding of a 32-bit unsigned value (CoLa UDInt). -/
def encUDInt (v : Nat) : List Nat :=
  [v / 16777216 % 256, v / 65536 % 256, v / 256 % 256, v % 256]

/-- The kinds of read operation the samples issue on a parameter reader. -/
inductive ReadKind
  | rUInt
  | rUDInt
  | rFlexString
deriving DecidableEq, Repr

/-- Modelled from the spec: CoLaParameterReader (spec 4.3), a forward-only
cursor over a received command payload; the engine class itself is in the
shared library, outside this repository.  The log records each read issued
together with the cursor position at which it started, so that the read
schedule and the cursor movement can be stated. -/
structure CoLaParameterReader where
  payload : List Nat
  pos : Nat
  log : List (ReadKind × Nat)
deriving DecidableEq, Repr

/-- A fresh cursor over a command payload. -/
def CoLaParameterReader.start (payload : List Nat) : CoLaParameterReader :=
  ⟨payload, 0, []⟩

/-- Modelled from the spec: one fixed-size read of n bytes; fails on a
truncated payload, otherwise advances the cursor by exactly n. -/
def CoLaParameterReader.takeBytes (r : CoLaParameterReader) (k : ReadKind) (n : Nat) :
    Option (List Nat × CoLaParameterReader) :=
  if r.pos + n ≤ r.payload.length then
    some ((r.payload.drop r.pos).take n,
          ⟨r.payload, r.pos + n, r.log ++ [(k, r.pos)]⟩)
  else none

/-- readUInt: 16-bit unsigned, big-endian. -/
def CoLaParameterReader.readUInt (r : CoLaParameterReader) :
    Option (Nat × CoLaParameterReader) :=
  (r.takeBytes .rUInt 2).map fun p => (beVal p.1, p.2)

/-- readUDInt: 32-bit unsigned, big-endian. -/
def CoLaParameterReader.readUDInt (r : CoLaParameterReader) :
    Option (Nat × CoLaParameterReader) :=
  (r.takeBytes .rUDInt 4).map fun p => (beVal p.1, p.2)

/-- readFlexString: a 16-bit length field followed by that many raw bytes,
no trailing terminator (spec 4.1); issued as a single read call. -/
def CoLaParameterReader.readFlexString (r : CoLaParameterReader) :
    Option (List Nat × CoLaParameterReader) :=
  if r.pos + 2 ≤ r.payload.length then
    if r.pos + 2 + beVal ((r.payload.drop r.pos).take 2) ≤ r.payload.length then
      some ((r.payload.drop (r.pos + 2)).take (beVal ((r.payload.drop r.pos).take 2)),
            ⟨r.payload, r.pos + 2 + beVal ((r.payload.drop r.pos).take 2),
             r.log ++ [(.rFlexString, r.pos)]⟩)
    else none
  else none

/-- One MSinfo record as decoded by the samples (SampleVisionaryS.cpp lines
269-286, identical in SampleVisionaryTMini.cpp lines 145-162). -/
structure MsinfoRecord where
  errorId : Nat
  errorState : Nat
  firstTime_PwrOnCount : Nat
  firstTime_OpSecs : Nat
  firstTime_TimeOccur : Nat
  lastTime_PwrOnCount : Nat
  lastTime_OpSecs : Nat
  lastTime_TimeOccur : Nat
  numberOccurrences : Nat
  errReserved : Nat
  extInfo : List Nat
deriving DecidableEq, Repr

/-- The loop body of the MSinfo decode: the 11 reads of one record, in the
exact order the sample code issues them. -/
def readMsinfoRecord (r : CoLaParameterReader) :
    Option (MsinfoRecord × CoLaParameterReader) := do
  let (errorId, r) ← r.readUDInt
  let (errorState, r) ← r.readUDInt
  let (ftPwr, r) ← r.readUInt
  let (ftOp, r) ← r.readUDInt
  let (ftOcc, r) ← r.readUDInt
  let (ltPwr, r) ← r.readUInt
  let (ltOp, r) ← r.readUDInt
  let (ltOcc, r) ← r.readUDInt
  let (nOcc, r) ← r.readUInt
  let (res, r) ← r.readUInt
  let (ext, r) ← r.readFlexString
  some (⟨errorId, errorState, ftPwr, ftOp, ftOcc, ltPwr, ltOp, ltOcc, nOcc, res, ext⟩, r)

/-- The fixed-count record loop (for i = 0; i < 25; i++ in the samples),
generic in the count. -/
def readMsinfoArray : Nat → CoLaParameterReader → Option (List MsinfoRecord × CoLaParameterReader)
  | 0, r => some ([], r)
  | n + 1, r => do
    let (x, r1) ← readMsinfoRecord r
    let (xs, r2) ← readMsinfoArray n r1
    some (x :: xs, r2)

/-- The MSinfo decode both streaming samples perform on the read-variable
response payload: 25 records, each of 11 reads. -/
def msinfoDecode (payload : List Nat) :
    Option (List MsinfoRecord × CoLaParameterReader) :=
  readMsinfoArray 25 (CoLaParameterReader.start payload)

/-- The per-record type order of the 11 reads issued by the sample loop. -/
def msinfoRecordTrace : List ReadKind :=
  [.rUDInt, .rUDInt, .rUInt, .rUDInt, .rUDInt, .rUInt, .rUDInt, .rUDInt,
   .rUInt, .rUInt, .rFlexString]

/-- A CoLa command: one protocol exchange unit (spec section 3). -/
structure CoLaCommand where
  type : CoLaCommandType
  name : String
  payload : List Nat
  error : CoLaError
deriving DecidableEq, Repr

/-- Modelled from the spec: CoLaParameterWriter (spec 4.2), the stateful
builder the samples use; the engine class is in the shared library,
outside this repository. -/
structure CoLaParameterWriter where
  type : CoLaCommandType
  name : String
  payload : List Nat
deriving DecidableEq, Repr

/-- CoLaParameterWriter(type, name). -/
def CoLaParameterWriter.start (t : CoLaCommandType) (n : String) : CoLaParameterWriter :=
  ⟨t, n, []⟩

/-- parameterUDInt: appends a 32-bit unsigned parameter, big-endian. -/
def CoLaParameterWriter.parameterUDInt (w : CoLaParameterWriter) (v : Nat) :
    CoLaParameterWriter :=
  { w with payload := w.payload ++ encUDInt v }

/-- build(): finalize into an immutable command; an outgoing command
carries the OK result code. -/
def CoLaParameterWriter.build (w : CoLaParameterWriter) : CoLaCommand :=
  ⟨w.type, w.name, w.payload, .OK⟩

/-- Modelled from the spec: the device the control session talks to (the
simulated device of the end-to-end scenarios, spec section 8), holding
the state the session verbs touch: reachability, the password accepted
per level, a variable store, per-variable write acceptance, the
acquisition state, and a log of received commands. -/
structure Device where
  reachable : Bool
  passwords : UserLevel → String
  vars : List (String × List Nat)
  writeAccept : String → CoLaError
  acq : AcqState
  recvLog : List CoLaCommand

/-- Modelled from the spec: the device command processor.  A read returns
the stored bytes with OK, or VARIABLE_UNKNOWN; a write stores the payload
when accepted and reports the device result code as data; method
invocations control acquisition; every well-formed request produces a
response command. -/
def Device.handleCommand (d : Device) (c : CoLaCommand) : CoLaCommand × Device :=
  let d1 : Device := { d with recvLog := d.recvLog ++ [c] }
  match c.type with
  | .READ_VARIABLE =>
      match d.vars.lookup c.name with
      | some bytes => (⟨.READ_VARIABLE_RESPONSE, c.name, bytes, .OK⟩, d1)
      | none => (⟨.READ_VARIABLE_RESPONSE, c.name, [], .VARIABLE_UNKNOWN⟩, d1)
  | .WRITE_VARIABLE =>
      match d.writeAccept c.name with
      | .OK => (⟨.WRITE_VARIABLE_RESPONSE, c.name, [], .OK⟩,
                { d1 with vars := (c.name, c.payload) :: d1.vars })
      | e => (⟨.WRITE_VARIABLE_RESPONSE, c.name, [], e⟩, d1)
  | .METHOD_INVOCATION =>
      if c.name = "PLAYSTOP" then
        (⟨.METHOD_RETURN_VALUE, c.name, [], .OK⟩, { d1 with acq := .STOPPED })
      else if c.name = "PLAYSTART" then
        (⟨.METHOD_RETURN_VALUE, c.name, [], .OK⟩, { d1 with acq := .RUNNING })
      else
        (⟨.METHOD_RETURN_VALUE, c.name, [], .OK⟩, d1)
  | _ => (⟨c.type, c.name, [], .OK⟩, d1)

/-- Modelled from the spec: ControlSession state (spec 4.4); owns the
control connection, tracks the session state machine. -/
structure VisionaryControl where
  state : SessionState
  protocol : Option ProtocolType
deriving DecidableEq, Repr

/-- Modelled from the spec: open(protocolVariant, address, timeout)
establishes the control connection and moves to Connected; fails with a
connection error when the device is unreachable, leaving state unchanged.
Named openControl because open is reserved. -/
def VisionaryControl.openControl (s : VisionaryControl) (p : ProtocolType) (d : Device) :
    Bool × VisionaryControl :=
  if d.reachable then (true, ⟨.Connected, some p⟩) else (false, s)

/-- Modelled from the spec: login(level, password) is invalid before open;
on acceptance it moves to Authenticated(level), replacing any previously
held level; on rejection the state is unchanged. -/
def VisionaryControl.login (s : VisionaryControl) (lvl : UserLevel) (pw : String)
    (d : Device) : Bool × VisionaryControl :=
  match s.state with
  | .Disconnected => (false, s)
  | _ =>
      if d.passwords lvl = pw then (true, { s with state := .Authenticated lvl })
      else (false, s)

/-- Modelled from the spec: sendCommand is valid in Connected or any
Authenticated state; a transport failure is a distinct connectivity error
(the Except error case), while a device-reported result code travels as
data inside the returned response command. -/
def VisionaryControl.sendCommand (s : VisionaryControl) (d : Device) (c : CoLaCommand) :
    Except Unit (CoLaCommand × Device) :=
  match s.state with
  | .Disconnected => .error ()
  | _ => .ok (d.handleCommand c)

/-- Modelled from the spec: logout() sends a logout command and moves back
to Connected regardless of the previously held authentication level. -/
def VisionaryControl.logout (s : VisionaryControl) (d : Device) :
    Bool × VisionaryControl × Device :=
  match s.state with
  | .Disconnected => (false, s, d)
  | _ =>
      let h := d.handleCommand ⟨.METHOD_INVOCATION, "Logout", [], .OK⟩
      (true, { s with state := .Connected }, h.2)

/-- Modelled from the spec: stopAcquisition() issues a specific
METHOD_INVOCATION command; stopping an already stopped device succeeds. -/
def VisionaryControl.stopAcquisition (s : VisionaryControl) (d : Device) :
    Bool × VisionaryControl × Device :=
  match VisionaryControl.sendCommand s d ⟨.METHOD_INVOCATION, "PLAYSTOP", [], .OK⟩ with
  | .error _ => (false, s, d)
  | .ok p => (decide (p.1.error = CoLaError.OK), s, p.2)

/-- Modelled from the spec: close() releases the connection from any
state; safe to call multiple times. -/
def VisionaryControl.close (s : VisionaryControl) : VisionaryControl :=
  ⟨.Disconnected, s.protocol⟩

/-- Modelled from the spec: getDeviceIdent() reads the DeviceIdent
variable and yields the raw response payload (the sample only prints it). -/
def VisionaryControl.getDeviceIdent (s : VisionaryControl) (d : Device) :
    List Nat × Device :=
  match VisionaryControl.sendCommand s d ⟨.READ_VARIABLE, "DeviceIdent", [], .OK⟩ with
  | .error _ => ([], d)
  | .ok p => (p.1.payload, p.2)

/-- The session-level operations the configuration phase performs, in
order, as observable events. -/
inductive SessionOp
  | opOpen (p : ProtocolType)
  | opStopAcquisition
  | opGetDeviceIdent
  | opLogin (lvl : UserLevel) (pw : String)
  | opSend (c : CoLaCommand)
  | opLogout
deriving DecidableEq, Repr

/-- The write command built at SampleVisionaryS.cpp lines 102-103. -/
def setFramePeriodCommand : CoLaCommand :=
  ((CoLaParameterWriter.start .WRITE_VARIABLE "framePeriodTime").parameterUDInt 150000).build

/-- The read command built at SampleVisionaryS.cpp line 120. -/
def getFramePeriodCommand : CoLaCommand :=
  (CoLaParameterWriter.start .READ_VARIABLE "framePeriodTime").build

/-- The full operation log of the configuration phase when no early
return is taken. -/
def configLog : List SessionOp :=
  [.opOpen .COLA_B, .opStopAcquisition, .opGetDeviceIdent,
   .opLogin .AUTHORIZED_CLIENT "CLIENT",
   .opSend setFramePeriodCommand, .opSend getFramePeriodCommand, .opLogout]

/-- Observable outcome of the configuration phase. -/
structure ConfigResult where
  log : List SessionOp
  writeResp : Option CoLaError
  readResp : Option CoLaError
  readValue : Option Nat
  control : VisionaryControl
  device : Device
  exit : ExitCode
  earlyReturn : Option Int
  transportFault : Bool

/-- The configuration phase of the Visionary-S streaming demo,
SampleVisionaryS.cpp lines 70-133 (open with COLA_B, stopAcquisition,
getDeviceIdent, login as AUTHORIZED_CLIENT with password CLIENT, write
framePeriodTime = 150000, read it back) and lines 299-305 (logout).  The
auto-exposure and MSinfo sections in between (lines 134-298) are separate
demo phases; the MSinfo decode is embedded separately above. -/
def configPhase (d0 : Device) : ConfigResult :=
  let e0 := ExitCode.init
  let o := VisionaryControl.openControl ⟨.Disconnected, none⟩ .COLA_B d0
  if o.1 = false then
    { log := [.opOpen .COLA_B], writeResp := none, readResp := none,
      readValue := none, control := o.2, device := d0, exit := e0.feed 1,
      earlyReturn := some (e0.feed 1).get, transportFault := false }
  else
    let st := VisionaryControl.stopAcquisition o.2 d0
    let gi := VisionaryControl.getDeviceIdent st.2.1 st.2.2
    let lg := VisionaryControl.login st.2.1 .AUTHORIZED_CLIENT "CLIENT" gi.2
    if lg.1 = false then
      { log := [.opOpen .COLA_B, .opStopAcquisition, .opGetDeviceIdent,
                .opLogin .AUTHORIZED_CLIENT "CLIENT"],
        writeResp := none, readResp := none, readValue := none,
        control := lg.2, device := gi.2, exit := e0.feed 2,
        earlyReturn := some (e0.feed 2).get, transportFault := false }
    else
      match VisionaryControl.sendCommand lg.2 gi.2 setFramePeriodCommand with
      | .error _ =>
          { log := configLog.take 5, writeResp := none, readResp := none,
            readValue := none, control := lg.2, device := gi.2, exit := e0,
            earlyReturn := none, transportFault := true }
      | .ok wr =>
          let e1 := if wr.1.error ≠ .OK then e0.feed 5 else e0
          match VisionaryControl.sendCommand lg.2 wr.2 getFramePeriodCommand with
          | .error _ =>
              { log := configLog.take 6, writeResp := some wr.1.error,
                readResp := none, readValue := none, control := lg.2,
                device := wr.2, exit := e1, earlyReturn := none,
                transportFault := true }
          | .ok rr =>
              let e2 := if rr.1.error ≠ .OK then e1.feed 5 else e1
              let rv := if rr.1.error ≠ .OK then none
                        else ((CoLaParameterReader.start rr.1.payload).readUDInt).map Prod.fst
              let lo := VisionaryControl.logout lg.2 rr.2
              let e3 := if lo.1 = false then e2.feed 2 else e2
              { log := configLog, writeResp := some wr.1.error,
                readResp := some rr.1.error, readValue := rv,
                control := lo.2.1, device := lo.2.2, exit := e3,
                earlyReturn := none, transportFault := false }

/-- The simulated device of the end-to-end scenario: reachable, accepting
AUTHORIZED_CLIENT with password CLIENT and SERVICE with CUST_SERV, all
writes accepted, no variables pre-set. -/
def simDevice : Device :=
  { reachable := true,
    passwords := fun lvl => match lvl with
      | .AUTHORIZED_CLIENT => "CLIENT"
      | .SERVICE => "CUST_SERV"
      | .NONE => "",
    vars := [],
    writeAccept := fun _ => .OK,
    acq := .RUNNING,
    recvLog := [] }

/-- A device that rejects every write with ACCESS_DENIED. -/
def rejectingDevice : Device :=
  { simDevice with writeAccept := fun _ => .ACCESS_DENIED }

/-- Modelled from the spec: the frame channel (spec 4.5).  pending holds
the partially buffered bytes kept across calls; callCount numbers the
getNextFrame calls so that the bytes arriving during each call can be
given by an oracle; frameSize is the size of one complete frame on this
stream. -/
structure VisionaryDataStream where
  frameSize : Nat
  pending : List Nat
  callCount : Nat
deriving DecidableEq, Repr

/-- Modelled from the spec: getNextFrame makes a single assembly attempt
(the engine performs no automatic retry): the bytes arriving during this
call are appended to the buffer; when a complete frame is present it is
consumed and delivered, otherwise the call times out recoverably and all
buffered bytes are kept for the next call. -/
def VisionaryDataStream.getNextFrame (ch : VisionaryDataStream)
    (arrivals : Nat → List Nat) : Bool × VisionaryDataStream :=
  let buf := ch.pending ++ arrivals ch.callCount
  if ch.frameSize ≤ buf.length then
    (true, { ch with pending := buf.drop ch.frameSize, callCount := ch.callCount + 1 })
  else
    (false, { ch with pending := buf, callCount := ch.callCount + 1 })

/-- The continuous-acquisition loop of both streaming demos
(SampleVisionaryS.cpp lines 356-370, SampleVisionaryTMini.cpp lines
244-261): one getNextFrame call per iteration; a failed call records exit
code 12 and the loop continues with the same channel.  Returns the
channel, the exit accumulator and the number of failed iterations. -/
def continuousLoop (arrivals : Nat → List Nat) :
    Nat → VisionaryDataStream → ExitCode → VisionaryDataStream × ExitCode × Nat
  | 0, ch, e => (ch, e, 0)
  | n + 1, ch, e =>
      let r := ch.getNextFrame arrivals
      let e1 := cond r.1 e (e.feed 12)
      let rest := continuousLoop arrivals n r.2 e1
      (rest.1, rest.2.1, rest.2.2 + cond r.1 0 1)

/-- Modelled from the spec: a discovery record as supplied by the
collaborator discovery service (spec section 6). -/
structure DeviceInfo where
  macAddress : List Nat
  ipAddress : String
  subNet : String
  port : Nat
  deviceName : String
deriving DecidableEq, Repr

/-- Hex digit characters. -/
def hexDigit (n : Nat) : Char :=
  "0123456789abcdef".toList.getD n 'x'

/-- Modelled from the spec: VisionaryAutoIPScan::convertMacToString,
rendering the six MAC bytes as colon-separated hex pairs (engine code
outside this repository; only its use as a rendering key matters to the
samples). -/
def convertMacToString (mac : List Nat) : String :=
  String.intercalate ":"
    (mac.map fun b => String.mk [hexDigit (b / 16 % 16), hexDigit (b % 16)])

/-- The rendered MAC of one discovery record, as the scan demo computes it. -/
def macString (it : DeviceInfo) : String := convertMacToString it.macAddress

/-- Outcome of runScanDemo: the insert-dedup set contents, the printed
records in print order, and the return value. -/
structure ScanResult where
  deviceMacs : List String
  printed : List DeviceInfo
  exit : Int
deriving DecidableEq, Repr

/-- Loop body of runScanDemo (SampleAutoIPScan.cpp lines 30-41): insert
the rendered MAC into the set; when the insert reports the MAC as already
present, skip the record; otherwise print it. -/
def runScanStep (st : List String × List DeviceInfo) (it : DeviceInfo) :
    List String × List DeviceInfo :=
  let mac := macString it
  if mac ∈ st.1 then st
  else (mac :: st.1, st.2 ++ [it])

/-- runScanDemo (SampleAutoIPScan.cpp lines 16-45): prints each device
whose MAC was not seen before, then the number of found devices (the set
size), and returns 0.  The device list returned by doScan is an input. -/
def runScanDemo (deviceList : List DeviceInfo) : ScanResult :=
  let st := deviceList.foldl runScanStep ([], [])
  { deviceMacs := st.1, printed := st.2, exit := 0 }

/-- runAssignDemo (SampleAssignIP.cpp lines 15-41): invokes the discovery
service assign operation (an input oracle standing for
VisionaryAutoIPScan::assign, engine code outside this repository), prints
a success or a failure message on standard output, and returns 0. -/
def runAssignDemo
    (assign : String → ProtocolType → String → Nat → String → Bool → Nat → Bool)
    (destinationMac : String) (colaVer : ProtocolType) (ipAddr : String)
    (prefixLen : Nat) (dhcp : Bool) (timeout : Nat) (ipGateway : String) :
    Int × String :=
  let successful := assign destinationMac colaVer ipAddr prefixLen ipGateway dhcp timeout
  if successful then (0, "Successfully assigned ip address")
  else (0, "Ip address could not be successfully assigned")

/-- A concrete scan result list with a duplicated MAC, for witnesses. -/
def sampleScanList : List DeviceInfo :=
  [⟨[0, 1, 2, 3, 4, 5], "192.168.1.10", "255.255.255.0", 2114, "VisionaryA"⟩,
   ⟨[0, 1, 2, 3, 4, 5], "192.168.1.11", "255.255.255.0", 2114, "VisionaryB"⟩,
   ⟨[9, 1, 2, 3, 4, 5], "192.168.1.12", "255.255.255.0", 2114, "VisionaryC"⟩]

/-- Whitespace for formatted istream extraction. -/
def isWs (c : Char) : Bool :=
  (c == ' ') || (c == '\t') || (c == '\n') || (c == '\r')

/-- Numeric value of a digit run. -/
def digitsVal (ds : List Char) : Nat :=
  ds.foldl (fun a c => a * 10 + (c.toNat - 48)) 0

/-- Models formatted istream extraction of a string: skip whitespace, then
take the maximal run of non-whitespace characters; no characters means
the extraction fails. -/
def extractToken (cs : List Char) : Option (List Char × List Char) :=
  let cs1 := cs.dropWhile isWs
  let tok := cs1.takeWhile fun c => !(isWs c)
  if tok.isEmpty then none else some (tok, cs1.drop tok.length)

/-- Models formatted istream extraction of an unsigned integer with the
given maximum: skip whitespace, take the maximal digit run; no digits or
a value out of range set the failbit (none). -/
def extractBounded (bound : Nat) (cs : List Char) : Option (Nat × List Char) :=
  let cs1 := cs.dropWhile isWs
  let ds := cs1.takeWhile Char.isDigit
  if ds.isEmpty then none
  else if digitsVal ds > bound then none
  else some (digitsVal ds, cs1.drop ds.length)

/-- Models istream extraction into an unsigned variable as the samples use
it: the value on success, 0 when there are no digits, the maximum on
overflow; the stream state is ignored by the samples afterwards. -/
def stdReadNat (bound : Nat) (cs : List Char) : Nat :=
  let ds := (cs.dropWhile isWs).takeWhile Char.isDigit
  if ds.isEmpty then 0
  else if digitsVal ds > bound then bound
  else digitsVal ds

/-- Models istream extraction into a string variable: the token, or empty
when the extraction fails (the stream erases the string first). -/
def stdReadString (cs : List Char) : List Char :=
  match extractToken cs with
  | none => []
  | some (tok, _) => tok

/-- Models istream extraction into an int variable (used for the -c cola
version): optional minus sign, digit run; 0 when there are no digits. -/
def stdReadInt (cs : List Char) : Int :=
  let cs1 := cs.dropWhile isWs
  match cs1 with
  | '-' :: rest =>
      let ds := rest.takeWhile Char.isDigit
      if ds.isEmpty then 0
      else if digitsVal ds > 2147483648 then -2147483648
      else -(digitsVal ds : Int)
  | _ =>
      let ds := cs1.takeWhile Char.isDigit
      if ds.isEmpty then 0
      else if digitsVal ds > 2147483647 then 2147483647
      else (digitsVal ds : Int)

/-- The CIDR handling both IP tools perform after the option loop
(SampleAutoIPScan.cpp lines 92-104, SampleAssignIP.cpp lines 110-122):
replace every slash with a space, then extract a token (the ip) and a
16-bit unsigned (the network-prefix length). -/
def parseCidr (cs : List Char) : Option (List Char × Nat) :=
  let replaced := cs.map fun c => if c = '/' then ' ' else c
  match extractToken replaced with
  | none => none
  | some (ip, rest) =>
      match extractBounded 65535 rest with
      | none => none
      | some (p, _) => some (ip, p)

/-- Boolean form of: the -i value fails to parse as ip and prefix length,
or parses with a prefix length greater than 32. -/
def cidrBad (cs : List Char) : Bool :=
  match parseCidr cs with
  | none => true
  | some (_, p) => decide (32 < p)

/-- Option-loop state of SampleAutoIPScan main (lines 53-59). -/
structure AutoIPState where
  showHelpAndExit : Bool
  exitCode : Int
  hostIP : List Char
  broadcastPort : Nat
  broadcastTimeoutMs : Nat
deriving DecidableEq, Repr

/-- Initial option state; DEFAULT_PORT is an engine constant modelled from
the library (its value does not influence any claim). -/
def autoIPInit : AutoIPState :=
  { showHelpAndExit := false, exitCode := 0, hostIP := [],
    broadcastPort := 30718, broadcastTimeoutMs := 5000 }

/-- The option loop of SampleAutoIPScan main (lines 61-90): an argument
not starting with a dash shows help with exit code 1 and breaks the loop;
the option letter is switched on; an unknown option shows help with exit
code 1 and continues. -/
def autoIPParseArgs : List (List Char) → AutoIPState → AutoIPState
  | [], s => s
  | a :: rest, s =>
      match a with
      | [] => { s with showHelpAndExit := true, exitCode := 1 }
      | c :: body =>
          if c ≠ '-' then { s with showHelpAndExit := true, exitCode := 1 }
          else
            match body with
            | [] => autoIPParseArgs rest { s with showHelpAndExit := true, exitCode := 1 }
            | o :: value =>
                if o = 'h' then
                  autoIPParseArgs rest { s with showHelpAndExit := true }
                else if o = 'i' then
                  autoIPParseArgs rest { s with hostIP := stdReadString value }
                else if o = 'p' then
                  autoIPParseArgs rest { s with broadcastPort := stdReadNat 65535 value }
                else if o = 't' then
                  autoIPParseArgs rest { s with broadcastTimeoutMs := stdReadNat 4294967295 value }
                else
                  autoIPParseArgs rest { s with showHelpAndExit := true, exitCode := 1 }

/-- SampleAutoIPScan main (lines 47-123): option loop, CIDR check on the
-i value, then either help text and the accumulated exit code, or the
scan demo, whose result is the exit code.  Returns the exit code and
whether the help text was printed. -/
def autoIPMain (deviceList : List DeviceInfo) (args : List (List Char)) : Int × Bool :=
  let s := autoIPParseArgs args autoIPInit
  let s2 := match parseCidr s.hostIP with
    | none => { s with showHelpAndExit := true }
    | some (_, p) => if 32 < p then { s with showHelpAndExit := true } else s
  if s2.showHelpAndExit then (s2.exitCode, true)
  else ((runScanDemo deviceList).exit, false)

/-- Option-loop state of SampleAssignIP main (lines 50-60). -/
structure AssignIPState where
  showHelpAndExit : Bool
  exitCode : Int
  destinationMac : List Char
  ipAddr : List Char
  dhcp : Bool
  colaVersion : ProtocolType
  ipGateway : List Char
  timeoutMs : Nat
deriving DecidableEq, Repr

/-- Initial option state; DEFAULT_GATEWAY is an engine constant modelled
from the library (its value does not influence any claim). -/
def assignIPInit : AssignIPState :=
  { showHelpAndExit := false, exitCode := 0, destinationMac := [], ipAddr := [],
    dhcp := false, colaVersion := .COLA_2,
    ipGateway := ['0', '.', '0', '.', '0', '.', '0'], timeoutMs := 5000 }

/-- The option loop of SampleAssignIP main (lines 62-108), same shape as
the scan tool with options h, o, c, i, d, t, g. -/
def assignIPParseArgs : List (List Char) → AssignIPState → AssignIPState
  | [], s => s
  | a :: rest, s =>
      match a with
      | [] => { s with showHelpAndExit := true, exitCode := 1 }
      | c :: body =>
          if c ≠ '-' then { s with showHelpAndExit := true, exitCode := 1 }
          else
            match body with
            | [] => assignIPParseArgs rest { s with showHelpAndExit := true, exitCode := 1 }
            | o :: value =>
                if o = 'h' then
                  assignIPParseArgs rest { s with showHelpAndExit := true }
                else if o = 'o' then
                  assignIPParseArgs rest { s with destinationMac := stdReadString value }
                else if o = 'c' then
                  assignIPParseArgs rest
                    { s with colaVersion :=
                        if stdReadInt value = 1 then ProtocolType.COLA_B
                        else if stdReadInt value = 2 then ProtocolType.COLA_2
                        else s.colaVersion }
                else if o = 'i' then
                  assignIPParseArgs rest { s with ipAddr := stdReadString value }
                else if o = 'd' then
                  assignIPParseArgs rest { s with dhcp := true }
                else if o = 't' then
                  assignIPParseArgs rest { s with timeoutMs := stdReadNat 4294967295 value }
                else if o = 'g' then
                  assignIPParseArgs rest { s with ipGateway := stdReadString value }
                else
                  assignIPParseArgs rest { s with showHelpAndExit := true, exitCode := 1 }

/-- SampleAssignIP main (lines 43-143): option loop, CIDR check on the -i
value, then either help text and the accumulated exit code, or the assign
demo with the parsed ip and the prefix cast to uint8.  Returns the exit
code and whether the help text was printed. -/
def assignIPMain
    (assign : String → ProtocolType → String → Nat → String → Bool → Nat → Bool)
    (args : List (List Char)) : Int × Bool :=
  let s := assignIPParseArgs args assignIPInit
  match parseCidr s.ipAddr with
  | none => ({ s with showHelpAndExit := true }.exitCode, true)
  | some (ip, p) =>
      if 32 < p then ({ s with showHelpAndExit := true }.exitCode, true)
      else if s.showHelpAndExit then (s.exitCode, true)
      else ((runAssignDemo assign (String.mk s.destinationMac) s.colaVersion
              (String.mk ip) (p % 256) s.dhcp s.timeoutMs
              (String.mk s.ipGateway)).1, false)

/-- Recognized well-formed argument of the scan tool: a dash followed by
one of the option letters h, i, p, t. -/
def autoIPGoodArg (a : List Char) : Bool :=
  match a with
  | c :: o :: _ =>
      (c == '-') && ((o == 'h') || (o == 'i') || (o == 'p') || (o == 't'))
  | _ => false

/-- Recognized well-formed argument of the assign tool: a dash followed by
one of the option letters h, o, c, i, d, t, g. -/
def assignIPGoodArg (a : List Char) : Bool :=
  match a with
  | c :: o :: _ =>
      (c == '-') && ((o == 'h') || (o == 'o') || (o == 'c') || (o == 'i') ||
        (o == 'd') || (o == 't') || (o == 'g'))
  | _ => false

/-- What one or more reads do to a reader: same payload, cursor moved
forward only, the stated kinds appended to the read log, and the sequence
of logged start positions extended monotonically. -/
def ReadStep (ks : List ReadKind) (r r' : CoLaParameterReader) : Prop :=
  r'.payload = r.payload ∧
  r.pos ≤ r'.pos ∧
  r'.log.map Prod.fst = r.log.map Prod.fst ++ ks ∧
  (List.Chain' (· ≤ ·) (r.log.map Prod.snd ++ [r.pos]) →
    List.Chain' (· ≤ ·) (r'.log.map Prod.snd ++ [r'.pos])) ∧
  r'.log.length = r.log.length + ks.length

end Visionary

namespace Visionary

theorem ExitCode.feed_m_code (e : ExitCode) (c : Int) :
    (e.feed c).m_code = mcomb e.m_code c := by
  unfold ExitCode.feed mcomb
  split <;> rfl

theorem ExitCode.foldl_m_code (cs : List Int) :
    ∀ e : ExitCode, (cs.foldl ExitCode.feed e).m_code = cs.foldl mcomb e.m_code := by
  induction cs with
  | nil => intro e; rfl
  | cons c cs ih =>
      intro e
      simp only [List.foldl_cons, ih, ExitCode.feed_m_code]

theorem foldl_mcomb_filter (cs : List Int) :
    ∀ a : Int, cs.foldl mcomb a = (cs.filter (· ≠ 0)).foldl mstep a := by
  induction cs with
  | nil => intro a; rfl
  | cons c cs ih =>
      intro a
      by_cases hc : c = 0
      · subst hc
        have h1 : mcomb a 0 = a := by
          unfold mcomb; simp
        simp [List.filter_cons, h1, ih]
      · have h2 : mcomb a c = mstep a c := by
          unfold mcomb mstep
          by_cases ha : a = 0
          · simp [ha, hc]
          · by_cases hlt : c < a
            · rw [if_pos ⟨hc, Or.inr hlt⟩, if_neg ha, min_eq_right (le_of_lt hlt)]
            · rw [if_neg ?hcnd, if_neg ha, min_eq_left (le_of_not_lt hlt)]
              case hcnd =>
                rintro ⟨_, hd | hd⟩
                · exact ha hd
                · exact hlt hd
        simp [List.filter_cons, hc, h2, ih]

theorem foldl_mstep_zeros (cs : List Int) (h : ∀ c ∈ cs, c = 0) :
    cs.filter (· ≠ 0) = [] := by
  induction cs with
  | nil => rfl
  | cons c cs ih =>
      have hc := h c (by simp)
      have ht : ∀ x ∈ cs, x = 0 := fun x hx => h x (List.mem_cons_of_mem c hx)
      have htail := ih ht
      clear ih
      simp only [List.filter_cons, hc]
      simpa using ht

theorem foldl_mstep_nonzero (cs : List Int) :
    ∀ a : Int, a ≠ 0 → (∀ c ∈ cs, c ≠ 0) →
      cs.foldl mstep a = cs.foldl min a ∧ cs.foldl min a ≠ 0 := by
  induction cs with
  | nil => intro a ha _; exact ⟨rfl, ha⟩
  | cons c cs ih =>
      intro a ha hcs
      have hc : c ≠ 0 := hcs c (by simp)
      have hmin : min a c ≠ 0 := by
        rcases min_choice a c with h | h <;> rw [h] <;> assumption
      have hstep : mstep a c = min a c := by unfold mstep; simp [ha]
      have ih2 := ih (min a c) hmin fun x hx => hcs x (by simp [hx])
      simpa [List.foldl_cons, hstep] using ih2

theorem foldl_min_mem (cs : List Int) :
    ∀ a : Int, cs.foldl min a = a ∨ cs.foldl min a ∈ cs := by
  induction cs with
  | nil => intro a; exact Or.inl rfl
  | cons c cs ih =>
      intro a
      rcases ih (min a c) with h | h
      · rcases min_choice a c with hm | hm
        · exact Or.inl (by rw [List.foldl_cons, h, hm])
        · exact Or.inr (by rw [List.foldl_cons, h, hm]; exact List.mem_cons_self c cs)
      · exact Or.inr (List.mem_cons_of_mem c h)

theorem foldl_min_le (cs : List Int) :
    ∀ a : Int, cs.foldl min a ≤ a ∧ ∀ c ∈ cs, cs.foldl min a ≤ c := by
  induction cs with
  | nil => intro a; exact ⟨le_refl a, by simp⟩
  | cons c cs ih =>
      intro a
      obtain ⟨h1, h2⟩ := ih (min a c)
      simp only [List.foldl_cons]
      refine ⟨le_trans h1 (min_le_left a c), ?_⟩
      intro x hx
      rcases List.mem_cons.mp hx with h | h
      · subst h; exact le_trans h1 (min_le_right a x)
      · exact h2 x h

theorem ExitCode.run_get (cs : List Int) :
    (ExitCode.run cs).get = (cs.filter (· ≠ 0)).foldl mstep 0 := by
  unfold ExitCode.run ExitCode.get ExitCode.init
  rw [ExitCode.foldl_m_code, foldl_mcomb_filter]

theorem ExitCode.run_get_nonempty (cs : List Int) (x : Int)
    (hx : x ∈ cs.filter (· ≠ 0)) :
    (ExitCode.run cs).get ∈ cs.filter (· ≠ 0) ∧
      ∀ y ∈ cs.filter (· ≠ 0), (ExitCode.run cs).get ≤ y := by
  rw [ExitCode.run_get]
  obtain ⟨c, cs', hcons⟩ : ∃ c cs', cs.filter (· ≠ 0) = c :: cs' := by
    cases h : cs.filter (· ≠ 0) with
    | nil => rw [h] at hx; exact absurd hx (List.not_mem_nil x)
    | cons c cs' => exact ⟨c, cs', rfl⟩
  have hc0 : c ≠ 0 := by
    have : c ∈ cs.filter (· ≠ 0) := by rw [hcons]; exact List.mem_cons_self c cs'
    simpa using (List.mem_filter.mp this).2
  have hall : ∀ y ∈ cs', y ≠ 0 := by
    intro y hy
    have : y ∈ cs.filter (· ≠ 0) := by rw [hcons]; exact List.mem_cons_of_mem c hy
    simpa using (List.mem_filter.mp this).2
  have hhead : (c :: cs').foldl mstep 0 = cs'.foldl min c := by
    have h0 : mstep 0 c = c := by unfold mstep; simp
    rw [List.foldl_cons, h0, (foldl_mstep_nonzero cs' c hc0 hall).1]
  rw [hcons, hhead]
  constructor
  · rcases foldl_min_mem cs' c with h | h
    · rw [h]; exact List.mem_cons_self c cs'
    · exact List.mem_cons_of_mem c h
  · intro y hy
    obtain ⟨h1, h2⟩ := foldl_min_le cs' c
    rcases List.mem_cons.mp hy with h | h
    · exact h ▸ h1
    · exact h2 y h

/-- C2: for every finite sequence of integer codes fed through
ExitCode::operator(), get() returns 0 when every fed code is 0,
otherwise the minimum of the non-zero codes fed (independent of the
feeding order), and ok() holds exactly when get() returns 0. -/
theorem exitCode_aggregates_min (cs : List Int) :
    ((ExitCode.run cs).ok = true ↔ (ExitCode.run cs).get = 0)
  ∧ ((∀ c ∈ cs, c = 0) → (ExitCode.run cs).get = 0)
  ∧ (∀ x ∈ cs.filter (· ≠ 0),
        (ExitCode.run cs).get ∈ cs.filter (· ≠ 0) ∧
        ∀ y ∈ cs.filter (· ≠ 0), (ExitCode.run cs).get ≤ y)
  ∧ (∀ cs' : List Int, cs.Perm cs' → (ExitCode.run cs).get = (ExitCode.run cs').get) := by
  refine ⟨?_, ?_, ?_, ?_⟩
  · unfold ExitCode.ok ExitCode.get
    exact beq_iff_eq
  · intro h
    rw [ExitCode.run_get, foldl_mstep_zeros cs h]
    rfl
  · intro x hx
    exact ExitCode.run_get_nonempty cs x hx
  · intro cs' hperm
    have hpf : (cs.filter (· ≠ 0)).Perm (cs'.filter (· ≠ 0)) := hperm.filter _
    cases hf : cs.filter (· ≠ 0) with
    | nil =>
        have hf' : cs'.filter (· ≠ 0) = [] := by
          have := hf ▸ hpf
          exact this.symm.eq_nil
        rw [ExitCode.run_get, ExitCode.run_get, hf, hf']
    | cons z zs =>
        have hz : z ∈ cs.filter (· ≠ 0) := by rw [hf]; exact List.mem_cons_self z zs
        have hz' : z ∈ cs'.filter (· ≠ 0) := hpf.mem_iff.mp hz
        obtain ⟨hm1, hb1⟩ := ExitCode.run_get_nonempty cs z hz
        obtain ⟨hm2, hb2⟩ := ExitCode.run_get_nonempty cs' z hz'
        exact le_antisymm (hb1 _ (hpf.mem_iff.mpr hm2)) (hb2 _ (hpf.mem_iff.mp hm1))

/-- Witness for C2 at concrete inputs. -/
theorem exitCode_aggregates_min_witness :
    (ExitCode.run [0, 0, 0]).get = 0
  ∧ ((ExitCode.run [0, 7, 3, 9]).get ∈ List.filter (· ≠ 0) [0, 7, 3, 9] ∧
      ∀ y ∈ List.filter (· ≠ 0) [(0 : Int), 7, 3, 9], (ExitCode.run [0, 7, 3, 9]).get ≤ y)
  ∧ (ExitCode.run [0, 7, 3, 9]).get = (ExitCode.run [9, 3, 0, 7]).get := by
  refine ⟨(exitCode_aggregates_min [0, 0, 0]).2.1 (by decide),
          (exitCode_aggregates_min [0, 7, 3, 9]).2.2.1 7 (by decide),
          (exitCode_aggregates_min [0, 7, 3, 9]).2.2.2 [9, 3, 0, 7] (by decide)⟩

theorem chain_le_snoc {l : List Nat} {a b : Nat}
    (h : List.Chain' (· ≤ ·) (l ++ [a])) (hab : a ≤ b) :
    List.Chain' (· ≤ ·) ((l ++ [a]) ++ [b]) := by
  rw [List.chain'_append]
  refine ⟨h, List.chain'_singleton b, ?_⟩
  intro x hx y hy
  rw [List.getLast?_concat] at hx
  cases hx
  cases hy
  exact hab

theorem ReadStep.trans {ks1 ks2 : List ReadKind} {r r1 r2 : CoLaParameterReader}
    (h1 : ReadStep ks1 r r1) (h2 : ReadStep ks2 r1 r2) :
    ReadStep (ks1 ++ ks2) r r2 := by
  obtain ⟨p1, m1, f1, c1, n1⟩ := h1
  obtain ⟨p2, m2, f2, c2, n2⟩ := h2
  refine ⟨p2.trans p1, m1.trans m2, ?_, fun h => c2 (c1 h), ?_⟩
  · rw [f2, f1, List.append_assoc]
  · rw [n2, n1, List.length_append, Nat.add_assoc]

theorem takeBytes_step {r : CoLaParameterReader} {k : ReadKind} {n : Nat}
    {bs : List Nat} {r' : CoLaParameterReader}
    (h : r.takeBytes k n = some (bs, r')) : ReadStep [k] r r' := by
  unfold CoLaParameterReader.takeBytes at h
  split at h
  case isTrue hle =>
    injection h with h'
    cases h'
    refine ⟨rfl, Nat.le_add_right _ _, by simp, ?_, by simp⟩
    intro hch
    have hrw : (r.log ++ [(k, r.pos)]).map Prod.snd ++ [r.pos + n]
        = (r.log.map Prod.snd ++ [r.pos]) ++ [r.pos + n] := by simp
    rw [hrw]
    exact chain_le_snoc hch (Nat.le_add_right _ _)
  case isFalse => exact absurd h (by simp)

theorem readUInt_step {r : CoLaParameterReader} {v : Nat} {r' : CoLaParameterReader}
    (h : r.readUInt = some (v, r')) : ReadStep [.rUInt] r r' := by
  unfold CoLaParameterReader.readUInt at h
  rw [Option.map_eq_some'] at h
  obtain ⟨⟨bs, r1⟩, hb, he⟩ := h
  cases he
  exact takeBytes_step hb

theorem readUDInt_step {r : CoLaParameterReader} {v : Nat} {r' : CoLaParameterReader}
    (h : r.readUDInt = some (v, r')) : ReadStep [.rUDInt] r r' := by
  unfold CoLaParameterReader.readUDInt at h
  rw [Option.map_eq_some'] at h
  obtain ⟨⟨bs, r1⟩, hb, he⟩ := h
  cases he
  exact takeBytes_step hb

theorem readFlexString_step {r : CoLaParameterReader} {v : List Nat}
    {r' : CoLaParameterReader}
    (h : r.readFlexString = some (v, r')) : ReadStep [.rFlexString] r r' := by
  unfold CoLaParameterReader.readFlexString at h
  split at h
  case isTrue h2 =>
    split at h
    case isTrue hlen =>
      injection h with h'
      cases h'
      refine ⟨rfl, ?_, by simp, ?_, by simp⟩
      · show r.pos ≤ r.pos + 2 + beVal ((r.payload.drop r.pos).take 2)
        omega
      intro hch
      have hrw : (r.log ++ [(ReadKind.rFlexString, r.pos)]).map Prod.snd
          ++ [r.pos + 2 + beVal ((r.payload.drop r.pos).take 2)]
          = (r.log.map Prod.snd ++ [r.pos])
            ++ [r.pos + 2 + beVal ((r.payload.drop r.pos).take 2)] := by simp
      rw [hrw]
      exact chain_le_snoc hch (by omega)
    case isFalse => exact absurd h (by simp)
  case isFalse => exact absurd h (by simp)

theorem readMsinfoRecord_step {r : CoLaParameterReader} {x : MsinfoRecord}
    {r' : CoLaParameterReader}
    (h : readMsinfoRecord r = some (x, r')) : ReadStep msinfoRecordTrace r r' := by
  simp only [readMsinfoRecord, bind, Option.bind_eq_some] at h
  obtain ⟨⟨v1, r1⟩, h1, h⟩ := h
  obtain ⟨⟨v2, r2⟩, h2, h⟩ := h
  obtain ⟨⟨v3, r3⟩, h3, h⟩ := h
  obtain ⟨⟨v4, r4⟩, h4, h⟩ := h
  obtain ⟨⟨v5, r5⟩, h5, h⟩ := h
  obtain ⟨⟨v6, r6⟩, h6, h⟩ := h
  obtain ⟨⟨v7, r7⟩, h7, h⟩ := h
  obtain ⟨⟨v8, r8⟩, h8, h⟩ := h
  obtain ⟨⟨v9, r9⟩, h9, h⟩ := h
  obtain ⟨⟨v10, r10⟩, h10, h⟩ := h
  obtain ⟨⟨v11, r11⟩, h11, h⟩ := h
  injection h with h'
  cases h'
  have step :=
    (((((((((((readUDInt_step h1).trans (readUDInt_step h2)).trans
      (readUInt_step h3)).trans (readUDInt_step h4)).trans
      (readUDInt_step h5)).trans (readUInt_step h6)).trans
      (readUDInt_step h7)).trans (readUDInt_step h8)).trans
      (readUInt_step h9)).trans (readUInt_step h10)).trans
      (readFlexString_step h11))
  simpa [msinfoRecordTrace] using step

theorem readMsinfoArray_step (n : Nat) :
    ∀ (r : CoLaParameterReader) (rs : List MsinfoRecord) (r' : CoLaParameterReader),
    readMsinfoArray n r = some (rs, r') →
      ReadStep ((List.replicate n msinfoRecordTrace).join) r r' ∧ rs.length = n := by
  induction n with
  | zero =>
      intro r rs r' h
      simp only [readMsinfoArray] at h
      injection h with h'
      cases h'
      exact ⟨⟨rfl, le_refl _, by simp, fun h => h, by simp⟩, rfl⟩
  | succ n ih =>
      intro r rs r' h
      simp only [readMsinfoArray, bind, Option.bind_eq_some] at h
      obtain ⟨⟨x, r1⟩, hx, h⟩ := h
      obtain ⟨⟨xs, r2⟩, hxs, h⟩ := h
      injection h with h'
      cases h'
      obtain ⟨hstep, hlen⟩ := ih r1 xs r2 hxs
      refine ⟨?_, by simp [hlen]⟩
      have := (readMsinfoRecord_step hx).trans hstep
      simpa [List.replicate_succ] using this

/-- C3: the MSinfo decode is forward-only and issues exactly 25 times 11
reads, per record in the order UDInt, UDInt, UInt, UDInt, UDInt, UInt,
UDInt, UDInt, UInt, UInt, FlexString; the cursor positions of the issued
reads never decrease (no seek or rewind). -/
theorem msinfo_reads_schedule (p : List Nat) (rs : List MsinfoRecord)
    (r' : CoLaParameterReader) (h : msinfoDecode p = some (rs, r')) :
    r'.log.map Prod.fst = (List.replicate 25 msinfoRecordTrace).join
  ∧ r'.log.length = 25 * 11
  ∧ rs.length = 25
  ∧ List.Chain' (· ≤ ·) (r'.log.map Prod.snd ++ [r'.pos]) := by
  obtain ⟨⟨hp, hm, hf, hc, hn⟩, hlen⟩ :=
    readMsinfoArray_step 25 (CoLaParameterReader.start p) rs r' h
  refine ⟨by simpa using hf, ?_, hlen, ?_⟩
  · rw [hn]
    have hjl : ((List.replicate 25 msinfoRecordTrace).join).length = 25 * 11 := by
      rw [List.length_join, List.map_replicate, List.sum_replicate, smul_eq_mul]
      norm_num [msinfoRecordTrace]
    rw [hjl]
    simp [CoLaParameterReader.start]
  · apply hc
    simp [CoLaParameterReader.start]

set_option maxRecDepth 100000 in
/-- Witness for C3: a well-formed all-zero MSinfo payload (25 records of
34 bytes each) decodes with a log of exactly 275 reads. -/
theorem msinfo_reads_schedule_witness :
    ∃ rs r', msinfoDecode (List.replicate 850 0) = some (rs, r')
      ∧ r'.log.length = 25 * 11 := by
  have h : (msinfoDecode (List.replicate 850 0)).isSome = true := by decide
  obtain ⟨⟨rs, r'⟩, hp⟩ := Option.isSome_iff_exists.mp h
  exact ⟨rs, r', hp, (msinfo_reads_schedule _ rs r' hp).2.1⟩

theorem readUDInt_enc150000 :
    ((CoLaParameterReader.start (encUDInt 150000)).readUDInt).map Prod.fst
      = some 150000 := by decide

/-- C1 (amended): against any reachable device that accepts
AUTHORIZED_CLIENT with password CLIENT and accepts the framePeriodTime
write, the configuration phase of the Visionary-S streaming demo
performs, in order, open with the legacy COLA_B variant (not the v2
variant), login, write framePeriodTime = 150000 as an unsigned 32-bit
parameter with result OK, read it back decoding 150000 with result OK,
and logout, after which the session state is Connected. -/
theorem configPhase_sequence (d0 : Device)
    (hreach : d0.reachable = true)
    (hpw : d0.passwords .AUTHORIZED_CLIENT = "CLIENT")
    (hw : d0.writeAccept "framePeriodTime" = .OK) :
    (configPhase d0).log = configLog
  ∧ List.Sublist
      [SessionOp.opOpen .COLA_B, .opLogin .AUTHORIZED_CLIENT "CLIENT",
       .opSend setFramePeriodCommand, .opSend getFramePeriodCommand, .opLogout]
      (configPhase d0).log
  ∧ setFramePeriodCommand.payload = encUDInt 150000
  ∧ (configPhase d0).writeResp = some .OK
  ∧ (configPhase d0).readResp = some .OK
  ∧ (configPhase d0).readValue = some 150000
  ∧ (configPhase d0).control.state = .Connected
  ∧ (configPhase d0).earlyReturn = none := by
  have hsub : List.Sublist
      [SessionOp.opOpen .COLA_B, .opLogin .AUTHORIZED_CLIENT "CLIENT",
       .opSend setFramePeriodCommand, .opSend getFramePeriodCommand, .opLogout]
      configLog := by decide
  cases hl : List.lookup "DeviceIdent" d0.vars with
  | none =>
      refine ⟨?_, ?_, ?_, ?_, ?_, ?_, ?_, ?_⟩ <;>
        simp [configPhase, VisionaryControl.openControl,
              VisionaryControl.stopAcquisition, VisionaryControl.sendCommand,
              VisionaryControl.getDeviceIdent, VisionaryControl.login,
              VisionaryControl.logout, Device.handleCommand, hreach, hpw, hw, hl,
              setFramePeriodCommand, getFramePeriodCommand,
              CoLaParameterWriter.start, CoLaParameterWriter.parameterUDInt,
              CoLaParameterWriter.build, configLog, readUDInt_enc150000, hsub]
  | some v =>
      refine ⟨?_, ?_, ?_, ?_, ?_, ?_, ?_, ?_⟩ <;>
        simp [configPhase, VisionaryControl.openControl,
              VisionaryControl.stopAcquisition, VisionaryControl.sendCommand,
              VisionaryControl.getDeviceIdent, VisionaryControl.login,
              VisionaryControl.logout, Device.handleCommand, hreach, hpw, hw, hl,
              setFramePeriodCommand, getFramePeriodCommand,
              CoLaParameterWriter.start, CoLaParameterWriter.parameterUDInt,
              CoLaParameterWriter.build, configLog, readUDInt_enc150000, hsub]

/-- Counterexample to C1 as stated: the Visionary-S streaming demo opens
the control session with the COLA_B (legacy) protocol variant, not the v2
variant; its operation log starts with open COLA_B and contains no open
with COLA_2. -/
theorem configPhase_opens_legacy_not_v2 :
    (configPhase simDevice).log.head? = some (SessionOp.opOpen .COLA_B)
  ∧ SessionOp.opOpen .COLA_2 ∉ (configPhase simDevice).log := by decide

/-- Witness for C1 at the simulated device. -/
theorem configPhase_sequence_witness :
    (configPhase simDevice).readValue = some 150000
  ∧ (configPhase simDevice).control.state = .Connected := by
  have h := configPhase_sequence simDevice rfl rfl rfl
  exact ⟨h.2.2.2.2.2.1, h.2.2.2.2.2.2.1⟩

/-- C4: logout from any Authenticated(level) session state succeeds and
returns the session to Connected, regardless of the level held. -/
theorem logout_returns_connected (s : VisionaryControl) (d : Device)
    (lvl : UserLevel) (h : s.state = .Authenticated lvl) :
    (s.logout d).1 = true ∧ (s.logout d).2.1.state = .Connected := by
  simp [VisionaryControl.logout, h]

/-- Witness for C4 at a SERVICE-authenticated session. -/
theorem logout_returns_connected_witness :
    ((⟨.Authenticated .SERVICE, some .COLA_B⟩ : VisionaryControl).logout
        simDevice).2.1.state = .Connected :=
  (logout_returns_connected ⟨.Authenticated .SERVICE, some .COLA_B⟩ simDevice
    .SERVICE rfl).2

/-- C5: on a connected session, stopAcquisition succeeds for every device
acquisition state (also when already stopped), leaves the device STOPPED,
and invoking it twice in a row succeeds and leaves the device in the same
STOPPED state as invoking it once. -/
theorem stopAcquisition_idempotent (s : VisionaryControl) (d : Device)
    (h : s.state ≠ .Disconnected) :
    (s.stopAcquisition d).1 = true
  ∧ (s.stopAcquisition d).2.2.acq = .STOPPED
  ∧ ((s.stopAcquisition d).2.1.stopAcquisition (s.stopAcquisition d).2.2).1 = true
  ∧ ((s.stopAcquisition d).2.1.stopAcquisition (s.stopAcquisition d).2.2).2.2.acq
      = (s.stopAcquisition d).2.2.acq := by
  cases hs : s.state with
  | Disconnected => exact absurd hs h
  | Connected =>
      simp [VisionaryControl.stopAcquisition, VisionaryControl.sendCommand,
            Device.handleCommand, hs]
  | Authenticated lvl =>
      simp [VisionaryControl.stopAcquisition, VisionaryControl.sendCommand,
            Device.handleCommand, hs]

/-- Witness for C5 on a running simulated device. -/
theorem stopAcquisition_idempotent_witness :
    ((⟨.Connected, some .COLA_2⟩ : VisionaryControl).stopAcquisition
        simDevice).2.2.acq = .STOPPED
  ∧ (((⟨.Connected, some .COLA_2⟩ : VisionaryControl).stopAcquisition
        simDevice).2.1.stopAcquisition
        ((⟨.Connected, some .COLA_2⟩ : VisionaryControl).stopAcquisition
          simDevice).2.2).2.2.acq
      = ((⟨.Connected, some .COLA_2⟩ : VisionaryControl).stopAcquisition
          simDevice).2.2.acq := by
  have h := stopAcquisition_idempotent ⟨.Connected, some .COLA_2⟩ simDevice
    (by decide)
  exact ⟨h.2.1, h.2.2.2⟩

/-- C6: sendCommand reports a device result as data in the response
command, never as an exception: on any non-closed session it returns
normally, and when the device rejects the framePeriodTime write the demo
records exit code 5, still issues the subsequent read and the logout, and
takes no early return. -/
theorem sendCommand_error_as_data :
    (∀ (s : VisionaryControl) (d : Device) (c : CoLaCommand),
        s.state ≠ .Disconnected →
          ∃ resp d', s.sendCommand d c = .ok (resp, d'))
  ∧ (∀ d0 : Device,
        d0.reachable = true →
        d0.passwords .AUTHORIZED_CLIENT = "CLIENT" →
        d0.writeAccept "framePeriodTime" ≠ .OK →
          (configPhase d0).writeResp = some (d0.writeAccept "framePeriodTime")
        ∧ (configPhase d0).writeResp ≠ some .OK
        ∧ (configPhase d0).exit.get = 5
        ∧ (configPhase d0).log = configLog
        ∧ (configPhase d0).earlyReturn = none
        ∧ (configPhase d0).transportFault = false) := by
  constructor
  · intro s d c h
    cases hs : s.state with
    | Disconnected => exact absurd hs h
    | Connected =>
        exact ⟨(d.handleCommand c).1, (d.handleCommand c).2,
          by simp [VisionaryControl.sendCommand, hs]⟩
    | Authenticated lvl =>
        exact ⟨(d.handleCommand c).1, (d.handleCommand c).2,
          by simp [VisionaryControl.sendCommand, hs]⟩
  · intro d0 hreach hpw hw
    cases he : d0.writeAccept "framePeriodTime" with
    | OK => exact absurd he hw
    | VARIABLE_UNKNOWN =>
        cases hl : List.lookup "DeviceIdent" d0.vars <;>
        cases hl2 : List.lookup "framePeriodTime" d0.vars <;>
          simp [configPhase, VisionaryControl.openControl,
                VisionaryControl.stopAcquisition, VisionaryControl.sendCommand,
                VisionaryControl.getDeviceIdent, VisionaryControl.login,
                VisionaryControl.logout, Device.handleCommand, hreach, hpw, he,
                hl, hl2, setFramePeriodCommand, getFramePeriodCommand,
                CoLaParameterWriter.start, CoLaParameterWriter.parameterUDInt,
                CoLaParameterWriter.build, configLog,
                ExitCode.feed, ExitCode.init, ExitCode.get]
    | ACCESS_DENIED =>
        cases hl : List.lookup "DeviceIdent" d0.vars <;>
        cases hl2 : List.lookup "framePeriodTime" d0.vars <;>
          simp [configPhase, VisionaryControl.openControl,
                VisionaryControl.stopAcquisition, VisionaryControl.sendCommand,
                VisionaryControl.getDeviceIdent, VisionaryControl.login,
                VisionaryControl.logout, Device.handleCommand, hreach, hpw, he,
                hl, hl2, setFramePeriodCommand, getFramePeriodCommand,
                CoLaParameterWriter.start, CoLaParameterWriter.parameterUDInt,
                CoLaParameterWriter.build, configLog,
                ExitCode.feed, ExitCode.init, ExitCode.get]

/-- Witness for C6: a connected session and the rejecting device. -/
theorem sendCommand_error_as_data_witness :
    (∃ resp d', (⟨.Connected, some .COLA_B⟩ : VisionaryControl).sendCommand
        simDevice setFramePeriodCommand = .ok (resp, d'))
  ∧ (configPhase rejectingDevice).exit.get = 5
  ∧ (configPhase rejectingDevice).log = configLog := by
  have h1 := sendCommand_error_as_data.1 ⟨.Connected, some .COLA_B⟩ simDevice
    setFramePeriodCommand (by decide)
  have h2 := sendCommand_error_as_data.2 rejectingDevice rfl rfl (by decide)
  exact ⟨h1, h2.2.2.1, h2.2.2.2.1⟩

theorem ExitCode.feed_feed_self (e : ExitCode) (c : Int) :
    (e.feed c).feed c = e.feed c := by
  by_cases hA : c ≠ 0 ∧ (e.m_code = 0 ∨ c < e.m_code)
  · have h1 : e.feed c = ⟨c⟩ := by unfold ExitCode.feed; rw [if_pos hA]
    rw [h1]
    unfold ExitCode.feed
    rw [if_neg]
    rintro ⟨hc, hd | hd⟩
    · exact hc hd
    · exact lt_irrefl c hd
  · have h1 : e.feed c = e := by unfold ExitCode.feed; rw [if_neg hA]
    rw [h1]
    exact h1

/-- C7: in the continuous-acquisition loop, a per-frame timeout is
recoverable: for every pattern of arrivals, the loop makes exactly one
getNextFrame attempt per iteration against the same channel (all
numberOfFrames iterations are attempted, failures included, with no
engine-side retry), failed iterations record exit code 12 and only then,
and no buffered byte is lost: the bytes initially pending plus all bytes
arriving equal the bytes of the delivered frames plus the bytes still
pending. -/
theorem continuousLoop_tolerates_timeouts (arrivals : Nat → List Nat) :
    ∀ (n : Nat) (ch : VisionaryDataStream) (e : ExitCode),
    (continuousLoop arrivals n ch e).1.callCount = ch.callCount + n
  ∧ (continuousLoop arrivals n ch e).1.frameSize = ch.frameSize
  ∧ (continuousLoop arrivals n ch e).2.2 ≤ n
  ∧ ch.pending.length
      + ((List.range n).map fun k => (arrivals (ch.callCount + k)).length).sum
      = (n - (continuousLoop arrivals n ch e).2.2) * ch.frameSize
        + (continuousLoop arrivals n ch e).1.pending.length
  ∧ (continuousLoop arrivals n ch e).2.1
      = (if (continuousLoop arrivals n ch e).2.2 = 0 then e else e.feed 12) := by
  intro n
  induction n with
  | zero =>
      intro ch e
      simp [continuousLoop]
  | succ n ih =>
      intro ch e
      by_cases hle : ch.frameSize ≤ (ch.pending ++ arrivals ch.callCount).length
      · have hg : ch.getNextFrame arrivals
            = (true, ⟨ch.frameSize,
                (ch.pending ++ arrivals ch.callCount).drop ch.frameSize,
                ch.callCount + 1⟩) := by
          unfold VisionaryDataStream.getNextFrame
          rw [if_pos hle]
        have IH := ih ⟨ch.frameSize,
            (ch.pending ++ arrivals ch.callCount).drop ch.frameSize,
            ch.callCount + 1⟩ e
        dsimp only at IH
        simp only [continuousLoop, hg, cond, Nat.add_zero]
        generalize hres : continuousLoop arrivals n
            ⟨ch.frameSize, (ch.pending ++ arrivals ch.callCount).drop ch.frameSize,
             ch.callCount + 1⟩ e = res at IH ⊢
        obtain ⟨ihc, ihf, ihn, ihs, ihe⟩ := IH
        refine ⟨by omega, ihf, by omega, ?_, ihe⟩
        have hplen : ((ch.pending ++ arrivals ch.callCount).drop ch.frameSize).length
            + ch.frameSize
            = ch.pending.length + (arrivals ch.callCount).length := by
          rw [List.length_drop, Nat.sub_add_cancel hle, List.length_append]
        have harr : ((List.range n).map fun k =>
              (arrivals (ch.callCount + 1 + k)).length)
            = ((List.range n).map fun k =>
              (arrivals (ch.callCount + (k + 1))).length) := by
          apply List.map_congr_left
          intro k _
          congr 2
          omega
        rw [harr] at ihs
        have htail : (List.range n).map
              ((fun k => (arrivals (ch.callCount + k)).length) ∘ Nat.succ)
            = (List.range n).map fun k =>
              (arrivals (ch.callCount + (k + 1))).length := by
          apply List.map_congr_left
          intro k _
          rfl
        have hsum : ((List.range (n + 1)).map fun k =>
              (arrivals (ch.callCount + k)).length).sum
            = (arrivals ch.callCount).length
              + ((List.range n).map fun k =>
                  (arrivals (ch.callCount + (k + 1))).length).sum := by
          rw [List.range_succ_eq_map, List.map_cons, List.map_map, htail, List.sum_cons]
          simp
        rw [hsum]
        have hmul : (n + 1 - res.2.2) * ch.frameSize
            = (n - res.2.2) * ch.frameSize + ch.frameSize := by
          rw [show n + 1 - res.2.2 = (n - res.2.2) + 1 from by omega, Nat.succ_mul]
        rw [hmul]
        generalize (n - res.2.2) * ch.frameSize = M at ihs ⊢
        omega
      · have hg : ch.getNextFrame arrivals
            = (false, ⟨ch.frameSize, ch.pending ++ arrivals ch.callCount,
                ch.callCount + 1⟩) := by
          unfold VisionaryDataStream.getNextFrame
          rw [if_neg hle]
        have IH := ih ⟨ch.frameSize, ch.pending ++ arrivals ch.callCount,
            ch.callCount + 1⟩ (e.feed 12)
        dsimp only at IH
        simp only [continuousLoop, hg, cond]
        generalize hres : continuousLoop arrivals n
            ⟨ch.frameSize, ch.pending ++ arrivals ch.callCount, ch.callCount + 1⟩
            (e.feed 12) = res at IH ⊢
        obtain ⟨ihc, ihf, ihn, ihs, ihe⟩ := IH
        refine ⟨by omega, ihf, by omega, ?_, ?_⟩
        · have harr : ((List.range n).map fun k =>
                (arrivals (ch.callCount + 1 + k)).length)
              = ((List.range n).map fun k =>
                (arrivals (ch.callCount + (k + 1))).length) := by
            apply List.map_congr_left
            intro k _
            congr 2
            omega
          rw [harr] at ihs
          have htail : (List.range n).map
                ((fun k => (arrivals (ch.callCount + k)).length) ∘ Nat.succ)
              = (List.range n).map fun k =>
                (arrivals (ch.callCount + (k + 1))).length := by
            apply List.map_congr_left
            intro k _
            rfl
          have hsum : ((List.range (n + 1)).map fun k =>
                (arrivals (ch.callCount + k)).length).sum
              = (arrivals ch.callCount).length
                + ((List.range n).map fun k =>
                    (arrivals (ch.callCount + (k + 1))).length).sum := by
            rw [List.range_succ_eq_map, List.map_cons, List.map_map, htail, List.sum_cons]
            simp
          rw [hsum]
          have hsub : n + 1 - (res.2.2 + 1) = n - res.2.2 := by omega
          rw [hsub]
          simp only [List.length_append] at ihs ⊢
          generalize (n - res.2.2) * ch.frameSize = M at ihs ⊢
          omega
        · rw [ihe]
          have hnz : ¬(res.2.2 + 1 = 0) := by omega
          rw [if_neg hnz]
          by_cases hz : res.2.2 = 0
          · rw [if_pos hz]
          · rw [if_neg hz, ExitCode.feed_feed_self]

/-- C8: runAssignDemo returns 0 for every input, whether or not the
assign operation reported success; failure shows only in the printed
message, never in the returned exit code. -/
theorem runAssignDemo_exit_zero
    (assign : String → ProtocolType → String → Nat → String → Bool → Nat → Bool)
    (mac : String) (cv : ProtocolType) (ip : String) (pl : Nat) (dh : Bool)
    (tmo : Nat) (gw : String) :
    (runAssignDemo assign mac cv ip pl dh tmo gw).1 = 0
  ∧ (runAssignDemo (fun _ _ _ _ _ _ _ => true) mac cv ip pl dh tmo gw).2
      ≠ (runAssignDemo (fun _ _ _ _ _ _ _ => false) mac cv ip pl dh tmo gw).2 := by
  constructor
  · cases hb : assign mac cv ip pl gw dh tmo <;> simp [runAssignDemo, hb]
  · simp [runAssignDemo]

theorem scan_fold_inv (l : List DeviceInfo) :
    ∀ (seen : List String) (printed : List DeviceInfo),
      seen.Nodup →
      (printed.map macString).Nodup →
      (∀ m, m ∈ seen ↔ m ∈ printed.map macString) →
        (l.foldl runScanStep (seen, printed)).1.Nodup
      ∧ ((l.foldl runScanStep (seen, printed)).2.map macString).Nodup
      ∧ (∀ m, m ∈ (l.foldl runScanStep (seen, printed)).1
            ↔ m ∈ (l.foldl runScanStep (seen, printed)).2.map macString)
      ∧ (∀ m, m ∈ (l.foldl runScanStep (seen, printed)).1
            ↔ m ∈ seen ∨ m ∈ l.map macString) := by
  induction l with
  | nil =>
      intro seen printed h1 h2 h3
      refine ⟨h1, h2, h3, fun m => ?_⟩
      simp [h3 m]
  | cons it l ih =>
      intro seen printed h1 h2 h3
      rw [List.foldl_cons]
      by_cases hmem : macString it ∈ seen
      · have hstep : runScanStep (seen, printed) it = (seen, printed) := by
          unfold runScanStep
          simp [hmem]
        rw [hstep]
        obtain ⟨g1, g2, g3, g4⟩ := ih seen printed h1 h2 h3
        refine ⟨g1, g2, g3, fun m => ?_⟩
        rw [g4 m]
        simp only [List.map_cons, List.mem_cons]
        constructor
        · rintro (h | h)
          · exact Or.inl h
          · exact Or.inr (Or.inr h)
        · rintro (h | h | h)
          · exact Or.inl h
          · exact Or.inl (h ▸ hmem)
          · exact Or.inr h
      · have hstep : runScanStep (seen, printed) it
            = (macString it :: seen, printed ++ [it]) := by
          unfold runScanStep
          simp [hmem]
        rw [hstep]
        have hmem2 : macString it ∉ printed.map macString :=
          fun hcon => hmem ((h3 _).mpr hcon)
        have h1n : (macString it :: seen).Nodup := List.nodup_cons.mpr ⟨hmem, h1⟩
        have h2n : ((printed ++ [it]).map macString).Nodup := by
          rw [List.map_append]
          simp [List.nodup_append, h2, hmem2]
        have h3n : ∀ m, m ∈ macString it :: seen
            ↔ m ∈ (printed ++ [it]).map macString := by
          intro m
          rw [List.map_append]
          simp only [List.mem_cons, List.mem_append, List.map_cons, List.map_nil,
            List.mem_singleton, h3 m]
          tauto
        obtain ⟨g1, g2, g3, g4⟩ := ih _ _ h1n h2n h3n
        refine ⟨g1, g2, g3, fun m => ?_⟩
        rw [g4 m]
        simp only [List.mem_cons, List.map_cons]
        tauto

/-- C9: runScanDemo prints each distinct MAC at most once, a record is
printed exactly when its MAC string occurs in the scan list, and the
final device count equals the number of distinct MAC strings; when the
rendering is injective on the listed MACs, that is the number of distinct
MAC addresses, not the number of raw records.  The demo returns 0. -/
theorem runScanDemo_distinct_macs (deviceList : List DeviceInfo) :
    ((runScanDemo deviceList).printed.map macString).Nodup
  ∧ (∀ m, m ∈ (runScanDemo deviceList).printed.map macString
        ↔ m ∈ deviceList.map macString)
  ∧ (runScanDemo deviceList).deviceMacs.length
      = (deviceList.map macString).dedup.length
  ∧ ((∀ a ∈ deviceList, ∀ b ∈ deviceList,
        macString a = macString b → a.macAddress = b.macAddress) →
      (runScanDemo deviceList).deviceMacs.length
        = (deviceList.map DeviceInfo.macAddress).dedup.length)
  ∧ (runScanDemo deviceList).exit = 0 := by
  obtain ⟨g1, g2, g3, g4⟩ :=
    scan_fold_inv deviceList [] [] List.nodup_nil (by simp) (by simp)
  have hmemiff : ∀ m, m ∈ (deviceList.foldl runScanStep ([], [])).1
      ↔ m ∈ deviceList.map macString := by
    intro m
    rw [g4 m]
    simp
  have hfin : (deviceList.foldl runScanStep ([], [])).1.toFinset
      = (deviceList.map macString).toFinset := by
    apply Finset.ext
    intro m
    simp only [List.mem_toFinset]
    exact hmemiff m
  have hlen : (deviceList.foldl runScanStep ([], [])).1.length
      = (deviceList.map macString).dedup.length := by
    rw [← List.toFinset_card_of_nodup g1, hfin, List.card_toFinset]
  have hP : (runScanDemo deviceList).printed
      = (deviceList.foldl runScanStep ([], [])).2 := rfl
  have hM : (runScanDemo deviceList).deviceMacs
      = (deviceList.foldl runScanStep ([], [])).1 := rfl
  refine ⟨by rw [hP]; exact g2, ?_, by rw [hM]; exact hlen, ?_, rfl⟩
  · intro m
    rw [hP, ← g3 m]
    exact hmemiff m
  · intro hinj
    rw [hM, hlen]
    have hmap : deviceList.map macString
        = (deviceList.map DeviceInfo.macAddress).map convertMacToString := by
      rw [List.map_map]
      apply List.map_congr_left
      intro it _
      rfl
    have hinj2 : Set.InjOn convertMacToString
        ↑(deviceList.map DeviceInfo.macAddress).toFinset := by
      intro x hx y hy hxy
      rw [Finset.mem_coe, List.mem_toFinset, List.mem_map] at hx hy
      obtain ⟨a, ha, rfl⟩ := hx
      obtain ⟨b, hb, rfl⟩ := hy
      exact hinj a ha b hb hxy
    have hTF : ((deviceList.map DeviceInfo.macAddress).map convertMacToString).toFinset
        = (deviceList.map DeviceInfo.macAddress).toFinset.image convertMacToString := by
      apply Finset.ext
      intro x
      simp [List.mem_toFinset, Finset.mem_image, List.mem_map]
    rw [← List.card_toFinset, ← List.card_toFinset, hmap, hTF,
      Finset.card_image_of_injOn hinj2]

/-- Witness for C9 on a concrete list with a duplicated MAC. -/
theorem runScanDemo_distinct_macs_witness :
    (runScanDemo sampleScanList).deviceMacs.length
      = (sampleScanList.map DeviceInfo.macAddress).dedup.length :=
  (runScanDemo_distinct_macs sampleScanList).2.2.2.1 (by decide)

theorem autoIP_good_step {a : List Char} (h : autoIPGoodArg a = true)
    (rest : List (List Char)) (s : AutoIPState) :
    ∃ s', autoIPParseArgs (a :: rest) s = autoIPParseArgs rest s'
      ∧ s'.exitCode = s.exitCode := by
  cases a with
  | nil => simp [autoIPGoodArg] at h
  | cons c body =>
      cases body with
      | nil => simp [autoIPGoodArg] at h
      | cons o v =>
          simp only [autoIPGoodArg, Bool.and_eq_true, Bool.or_eq_true,
            beq_iff_eq, or_assoc] at h
          obtain ⟨hc, ho⟩ := h
          subst hc
          rcases ho with ho | ho | ho | ho <;> subst ho
          · exact ⟨{ s with showHelpAndExit := true },
              by simp [autoIPParseArgs], rfl⟩
          · exact ⟨{ s with hostIP := stdReadString v },
              by simp [autoIPParseArgs], rfl⟩
          · exact ⟨{ s with broadcastPort := stdReadNat 65535 v },
              by simp [autoIPParseArgs], rfl⟩
          · exact ⟨{ s with broadcastTimeoutMs := stdReadNat 4294967295 v },
              by simp [autoIPParseArgs], rfl⟩

theorem autoIP_loop_good (args : List (List Char)) :
    ∀ s : AutoIPState, (∀ a ∈ args, autoIPGoodArg a = true) →
      (autoIPParseArgs args s).exitCode = s.exitCode := by
  induction args with
  | nil => intro s _; rfl
  | cons a rest ih =>
      intro s hgood
      obtain ⟨s', heq, hcode⟩ :=
        autoIP_good_step (hgood a (List.mem_cons_self a rest)) rest s
      rw [heq, ih s' fun b hb => hgood b (List.mem_cons_of_mem a hb), hcode]

theorem autoIP_loop_sticky (args : List (List Char)) :
    ∀ s : AutoIPState, s.exitCode = 1 → s.showHelpAndExit = true →
      (autoIPParseArgs args s).exitCode = 1
    ∧ (autoIPParseArgs args s).showHelpAndExit = true := by
  induction args with
  | nil => intro s h1 h2; exact ⟨h1, h2⟩
  | cons a rest ih =>
      intro s h1 h2
      cases a with
      | nil => simp [autoIPParseArgs]
      | cons c body =>
          by_cases hc : c = '-'
          · subst hc
            cases body with
            | nil =>
                have := ih { s with showHelpAndExit := true, exitCode := 1 } rfl rfl
                simpa [autoIPParseArgs] using this
            | cons o v =>
                simp only [autoIPParseArgs]
                split_ifs with hd h3 h4 h5
                · exact absurd rfl hd
                · exact ih _ (by simp [h1]) (by simp [h2])
                · exact ih _ (by simp [h1]) (by simp [h2])
                · exact ih _ (by simp [h1]) (by simp [h2])
                · exact ih _ (by simp [h1]) (by simp [h2])
                · exact ih _ (by simp) (by simp)
          · simp [autoIPParseArgs, hc]

theorem autoIP_loop_bad (args : List (List Char)) :
    ∀ s : AutoIPState, (∃ a ∈ args, autoIPGoodArg a = false) →
      (autoIPParseArgs args s).exitCode = 1
    ∧ (autoIPParseArgs args s).showHelpAndExit = true := by
  induction args with
  | nil =>
      intro s h
      obtain ⟨a, ha, _⟩ := h
      exact absurd ha (List.not_mem_nil a)
  | cons a rest ih =>
      intro s h
      by_cases hga : autoIPGoodArg a = true
      · obtain ⟨s', heq, _⟩ := autoIP_good_step hga rest s
        rw [heq]
        apply ih
        obtain ⟨b, hb, hbad⟩ := h
        rcases List.mem_cons.mp hb with hb1 | hb2
        · rw [hb1, hga] at hbad
          cases hbad
        · exact ⟨b, hb2, hbad⟩
      · cases a with
        | nil => simp [autoIPParseArgs]
        | cons c body =>
            by_cases hc : c = '-'
            · subst hc
              cases body with
              | nil =>
                  have := autoIP_loop_sticky rest
                    { s with showHelpAndExit := true, exitCode := 1 } rfl rfl
                  simpa [autoIPParseArgs] using this
              | cons o v =>
                  have ho : ¬(o = 'h') ∧ ¬(o = 'i') ∧ ¬(o = 'p') ∧ ¬(o = 't') := by
                    simp [autoIPGoodArg] at hga
                    tauto
                  obtain ⟨h3, h4, h5, h6⟩ := ho
                  have := autoIP_loop_sticky rest
                    { s with showHelpAndExit := true, exitCode := 1 } rfl rfl
                  simpa [autoIPParseArgs, h3, h4, h5, h6] using this
            · simp [autoIPParseArgs, hc]

theorem assignIP_good_step {a : List Char} (h : assignIPGoodArg a = true)
    (rest : List (List Char)) (s : AssignIPState) :
    ∃ s', assignIPParseArgs (a :: rest) s = assignIPParseArgs rest s'
      ∧ s'.exitCode = s.exitCode := by
  cases a with
  | nil => simp [assignIPGoodArg] at h
  | cons c body =>
      cases body with
      | nil => simp [assignIPGoodArg] at h
      | cons o v =>
          simp only [assignIPGoodArg, Bool.and_eq_true, Bool.or_eq_true,
            beq_iff_eq, or_assoc] at h
          obtain ⟨hc, ho⟩ := h
          subst hc
          rcases ho with ho | ho | ho | ho | ho | ho | ho <;> subst ho
          · exact ⟨{ s with showHelpAndExit := true },
              by simp [assignIPParseArgs], rfl⟩
          · exact ⟨{ s with destinationMac := stdReadString v },
              by simp [assignIPParseArgs], rfl⟩
          · exact ⟨{ s with colaVersion :=
                if stdReadInt v = 1 then ProtocolType.COLA_B
                else if stdReadInt v = 2 then ProtocolType.COLA_2
                else s.colaVersion },
              by simp [assignIPParseArgs], rfl⟩
          · exact ⟨{ s with ipAddr := stdReadString v },
              by simp [assignIPParseArgs], rfl⟩
          · exact ⟨{ s with dhcp := true },
              by simp [assignIPParseArgs], rfl⟩
          · exact ⟨{ s with timeoutMs := stdReadNat 4294967295 v },
              by simp [assignIPParseArgs], rfl⟩
          · exact ⟨{ s with ipGateway := stdReadString v },
              by simp [assignIPParseArgs], rfl⟩

theorem assignIP_loop_good (args : List (List Char)) :
    ∀ s : AssignIPState, (∀ a ∈ args, assignIPGoodArg a = true) →
      (assignIPParseArgs args s).exitCode = s.exitCode := by
  induction args with
  | nil => intro s _; rfl
  | cons a rest ih =>
      intro s hgood
      obtain ⟨s', heq, hcode⟩ :=
        assignIP_good_step (hgood a (List.mem_cons_self a rest)) rest s
      rw [heq, ih s' fun b hb => hgood b (List.mem_cons_of_mem a hb), hcode]

theorem assignIP_loop_sticky (args : List (List Char)) :
    ∀ s : AssignIPState, s.exitCode = 1 → s.showHelpAndExit = true →
      (assignIPParseArgs args s).exitCode = 1
    ∧ (assignIPParseArgs args s).showHelpAndExit = true := by
  induction args with
  | nil => intro s h1 h2; exact ⟨h1, h2⟩
  | cons a rest ih =>
      intro s h1 h2
      cases a with
      | nil => simp [assignIPParseArgs]
      | cons c body =>
          by_cases hc : c = '-'
          · subst hc
            cases body with
            | nil =>
                have := ih { s with showHelpAndExit := true, exitCode := 1 } rfl rfl
                simpa [assignIPParseArgs] using this
            | cons o v =>
                simp only [assignIPParseArgs]
                split_ifs with hd
                · exact absurd rfl hd
                all_goals exact ih _ (by simp [h1]) (by simp [h2])
          · simp [assignIPParseArgs, hc]

theorem assignIP_loop_bad (args : List (List Char)) :
    ∀ s : AssignIPState, (∃ a ∈ args, assignIPGoodArg a = false) →
      (assignIPParseArgs args s).exitCode = 1
    ∧ (assignIPParseArgs args s).showHelpAndExit = true := by
  induction args with
  | nil =>
      intro s h
      obtain ⟨a, ha, _⟩ := h
      exact absurd ha (List.not_mem_nil a)
  | cons a rest ih =>
      intro s h
      by_cases hga : assignIPGoodArg a = true
      · obtain ⟨s', heq, _⟩ := assignIP_good_step hga rest s
        rw [heq]
        apply ih
        obtain ⟨b, hb, hbad⟩ := h
        rcases List.mem_cons.mp hb with hb1 | hb2
        · rw [hb1, hga] at hbad
          cases hbad
        · exact ⟨b, hb2, hbad⟩
      · cases a with
        | nil => simp [assignIPParseArgs]
        | cons c body =>
            by_cases hc : c = '-'
            · subst hc
              cases body with
              | nil =>
                  have := assignIP_loop_sticky rest
                    { s with showHelpAndExit := true, exitCode := 1 } rfl rfl
                  simpa [assignIPParseArgs] using this
              | cons o v =>
                  have ho : ¬(o = 'h') ∧ ¬(o = 'o') ∧ ¬(o = 'c') ∧ ¬(o = 'i')
                      ∧ ¬(o = 'd') ∧ ¬(o = 't') ∧ ¬(o = 'g') := by
                    simp [assignIPGoodArg] at hga
                    tauto
                  obtain ⟨h3, h4, h5, h6, h7, h8, h9⟩ := ho
                  have := assignIP_loop_sticky rest
                    { s with showHelpAndExit := true, exitCode := 1 } rfl rfl
                  simpa [assignIPParseArgs, h3, h4, h5, h6, h7, h8, h9] using this
            · simp [assignIPParseArgs, hc]

/-- C10 (amended): in both IP tools, when every argument is a dash
followed by a recognized option letter, a -i value that fails to parse as
ip slash prefix, or parses with a prefix length above 32, makes main
print the help text and exit with code 0 (the same as an explicit -h);
an unrecognized option or a non-dash argument instead makes main print
the help text and exit with code 1, also when the -i value is bad. -/
theorem ipTools_help_exit_codes (deviceList : List DeviceInfo)
    (assign : String → ProtocolType → String → Nat → String → Bool → Nat → Bool)
    (args : List (List Char)) :
    ((∀ a ∈ args, autoIPGoodArg a = true) →
       cidrBad (autoIPParseArgs args autoIPInit).hostIP = true →
       autoIPMain deviceList args = (0, true))
  ∧ ((∃ a ∈ args, autoIPGoodArg a = false) →
       autoIPMain deviceList args = (1, true))
  ∧ autoIPMain deviceList [['-', 'h']] = (0, true)
  ∧ ((∀ a ∈ args, assignIPGoodArg a = true) →
       cidrBad (assignIPParseArgs args assignIPInit).ipAddr = true →
       assignIPMain assign args = (0, true))
  ∧ ((∃ a ∈ args, assignIPGoodArg a = false) →
       assignIPMain assign args = (1, true))
  ∧ assignIPMain assign [['-', 'h']] = (0, true) := by
  refine ⟨?_, ?_, by rfl, ?_, ?_, by rfl⟩
  · intro hgood hbad
    have hcode : (autoIPParseArgs args autoIPInit).exitCode = 0 :=
      autoIP_loop_good args autoIPInit hgood
    cases hp : parseCidr (autoIPParseArgs args autoIPInit).hostIP with
    | none => simp [autoIPMain, hp, hcode]
    | some pr =>
        obtain ⟨ip, p⟩ := pr
        have hpgt : 32 < p := by
          unfold cidrBad at hbad
          rw [hp] at hbad
          simpa using hbad
        simp [autoIPMain, hp, hpgt, hcode]
  · intro h
    obtain ⟨hcode, hhelp⟩ := autoIP_loop_bad args autoIPInit h
    cases hp : parseCidr (autoIPParseArgs args autoIPInit).hostIP with
    | none => simp [autoIPMain, hp, hcode]
    | some pr =>
        obtain ⟨ip, p⟩ := pr
        by_cases h32 : 32 < p
        · simp [autoIPMain, hp, h32, hcode]
        · simp [autoIPMain, hp, h32, hcode, hhelp]
  · intro hgood hbad
    have hcode : (assignIPParseArgs args assignIPInit).exitCode = 0 :=
      assignIP_loop_good args assignIPInit hgood
    cases hp : parseCidr (assignIPParseArgs args assignIPInit).ipAddr with
    | none => simp [assignIPMain, hp, hcode]
    | some pr =>
        obtain ⟨ip, p⟩ := pr
        have hpgt : 32 < p := by
          unfold cidrBad at hbad
          rw [hp] at hbad
          simpa using hbad
        simp [assignIPMain, hp, hpgt, hcode]
  · intro h
    obtain ⟨hcode, hhelp⟩ := assignIP_loop_bad args assignIPInit h
    cases hp : parseCidr (assignIPParseArgs args assignIPInit).ipAddr with
    | none => simp [assignIPMain, hp, hcode]
    | some pr =>
        obtain ⟨ip, p⟩ := pr
        by_cases h32 : 32 < p
        · simp [assignIPMain, hp, h32, hcode]
        · simp [assignIPMain, hp, h32, hcode, hhelp]

/-- Counterexample to C10 as stated: on the scan tool command line with
the unrecognized option -x followed by -i1.2/40, the -i argument parses
with prefix length 40 which is greater than 32, yet main exits with code
1 (help printed), not 0 as the claim requires for every such command
line. -/
theorem ipTools_badIp_after_badOption_exits_one :
    parseCidr (autoIPParseArgs
        [['-', 'x'], ['-', 'i', '1', '.', '2', '/', '4', '0']]
        autoIPInit).hostIP = some (['1', '.', '2'], 40)
  ∧ 32 < 40
  ∧ autoIPMain [] [['-', 'x'], ['-', 'i', '1', '.', '2', '/', '4', '0']]
      = (1, true) := by decide

/-- Witness for C10 at concrete command lines of both tools. -/
theorem ipTools_help_exit_codes_witness :
    autoIPMain [] [['-', 'i', 'x']] = (0, true)
  ∧ autoIPMain [] [['x']] = (1, true)
  ∧ assignIPMain (fun _ _ _ _ _ _ _ => true) [['-', 'i', 'x']] = (0, true)
  ∧ assignIPMain (fun _ _ _ _ _ _ _ => true) [['x']] = (1, true) := by
  have h1 := ipTools_help_exit_codes [] (fun _ _ _ _ _ _ _ => true)
    [['-', 'i', 'x']]
  have h2 := ipTools_help_exit_codes [] (fun _ _ _ _ _ _ _ => true) [['x']]
  exact ⟨h1.1 (by decide) (by decide), h2.2.1 (by decide),
    h1.2.2.2.1 (by decide) (by decide), h2.2.2.2.2.1 (by decide)⟩

end Visionary
